import Mathlib

/-!
Shallow embedding of `scripts/python/convert_to_parquet.py`.

The script converts a CSV dataset to a Parquet file: it prints the source
size, loads the CSV with `pandas.read_csv` (parsing the `InvoiceDate`
column as dates), prints statistics (row/column counts, column names, date
range, distinct counts of three columns), creates the destination directory
(`mkdir(parents=True, exist_ok=True)`), writes the table with
`df.to_parquet(..., index=False)`, and prints a compression summary.
A `FileNotFoundError` is answered with a message and `sys.exit(1)`; any
other exception inside the `try` block with the exception text and
`sys.exit(1)`.

The embedding models paths as lists of components, the filesystem as an
association list of files plus a list of directories, a loaded dataframe as
a table of string cells, and each `print` as a constructor of `Line`
carrying the values the script interpolates into the printed text.  The
size in bytes of the written Parquet file is an opaque parameter (the
compression codec is outside the program).  Python floats are modelled as
rationals.
-/

/-- A filesystem path, as its list of components. -/
abbrev FPath := List String

/-- Column-name constant appearing in the script. -/
def colInvoiceDate : String := "InvoiceDate"

/-- Column-name constant appearing in the script. -/
def colInvoice : String := "Invoice"

/-- Column-name constant appearing in the script. -/
def colStockCode : String := "StockCode"

/-- Column-name constant appearing in the script. -/
def colCustomerID : String := "Customer ID"

/-- Default cell used when a ragged row is shorter than the column index. -/
def emptyCell : String := ""

/-- An in-memory table: ordered column names and rows of string cells.
This is the Dataset entity: `pandas.read_csv` produces one, `to_parquet`
consumes one. -/
structure Table where
  cols : List String
  rows : List (List String)
deriving DecidableEq

/-- Content stored in a file: a CSV-encoded table or a Parquet-encoded
table. -/
inductive FileContent where
  | csv (t : Table)
  | parquet (t : Table)
deriving DecidableEq

/-- A file on disk: its decoded content and its size in bytes. -/
structure DiskFile where
  content : FileContent
  size : Nat
deriving DecidableEq

/-- The filesystem: files keyed by path, and the set of existing
directories (the root `[]` always exists). -/
structure Disk where
  files : List (FPath × DiskFile)
  dirs : List FPath
deriving DecidableEq

/-- Python exceptions the script can encounter. -/
inductive PyErr where
  /-- `FileNotFoundError`, raised by `Path.stat` on a missing path. -/
  | fileNotFound (p : FPath)
  /-- `ValueError` from `read_csv(parse_dates=['InvoiceDate'])` when the
  column is absent. -/
  | parseDatesMissingInvoiceDate
  /-- Parse failure of `read_csv` on non-CSV content. -/
  | parseError
  /-- `KeyError` from `df[name]` when the column is absent. -/
  | keyError (name : String)
  /-- Error from writing into a directory that does not exist. -/
  | noSuchDir (p : FPath)
  /-- `ZeroDivisionError` from `parquet_size / csv_size`. -/
  | zeroDivision
deriving DecidableEq

/-- One printed line, as the constructor for the `print` statement that
emits it, carrying the values interpolated into the text. -/
inductive Line where
  | readingCsv (p : FPath)
  | fileSizeMB (mb : ℚ)
  | loadedOk
  | rowCount (n : Nat)
  | colCount (n : Nat)
  | columnsHeader
  | columnName (c : String)
  | statsHeader
  | dateRange (lo hi : Option String)
  | uniqueInvoices (n : Nat)
  | uniqueProducts (n : Nat)
  | uniqueCustomers (n : Nat)
  | convertingMsg
  | parquetCreated (p : FPath)
  | blank
  | summaryRule
  | summaryHeader
  | csvSizeMB (mb : ℚ)
  | parquetSizeMB (mb : ℚ)
  | compressionPct (pct : ℚ)
  | rowsProcessed (n : Nat)
  | errorCsvNotFound (p : FPath)
  | errorDuringConversion (e : PyErr)
  | bannerRule
  | bannerTitle
  | bannerSubtitle
  | completedMsg
  | nextStepsMsg (p : FPath)
deriving DecidableEq

/-- How a run of the script ends: the function returned, `sys.exit(code)`
was called, or an exception escaped unhandled.  CPython terminates the
process with exit status 1 when an exception propagates out of `main`. -/
inductive ProcEnd where
  | normal
  | exited (code : Nat)
  | raised (e : PyErr)
deriving DecidableEq

/-- The process exit status a run end produces: `sys.exit(code)` exits with
`code`, and CPython exits with status 1 on an unhandled exception. -/
def ProcEnd.exitStatus : ProcEnd → Nat
  | .normal => 0
  | .exited code => code
  | .raised _ => 1

/-- Result of running (part of) the script: the lines printed, the
filesystem afterwards, and how the run ended. -/
structure RunResult where
  out : List Line
  disk : Disk
  term : ProcEnd
deriving DecidableEq

/-- Look a file up by path. -/
def findFile : List (FPath × DiskFile) → FPath → Option DiskFile
  | [], _ => none
  | (q, f) :: rest, p => if q = p then some f else findFile rest p

/-- Size in bytes of the file at a path, when it exists (`Path.stat`). -/
def Disk.statBytes (d : Disk) (p : FPath) : Option Nat :=
  (findFile d.files p).map DiskFile.size

/-- Embedding of `get_file_size_mb` (line 20): `path.stat().st_size /
(1024 * 1024)`.  `Path.stat` raises `FileNotFoundError` on a missing path;
the function itself adds no error handling. -/
def get_file_size_mb (d : Disk) (p : FPath) : Except PyErr ℚ :=
  match d.statBytes p with
  | none => .error (.fileNotFound p)
  | some bytes => .ok ((bytes : ℚ) / (1024 * 1024))

/-- Embedding of `pd.read_csv(csv_path, encoding='utf-8',
parse_dates=['InvoiceDate'])` (line 45): fails with `FileNotFoundError` on
a missing file, with a `ValueError` when the `InvoiceDate` column named in
`parse_dates` is absent, and with a parse error on non-CSV content. -/
def read_csv (d : Disk) (p : FPath) : Except PyErr Table :=
  match findFile d.files p with
  | none => .error (.fileNotFound p)
  | some f =>
    match f.content with
    | .csv t =>
      if colInvoiceDate ∈ t.cols then .ok t
      else .error .parseDatesMissingInvoiceDate
    | .parquet _ => .error .parseError

/-- Index of a column name in a header list (first occurrence). -/
def colIndex : List String → String → Option Nat
  | [], _ => none
  | c :: cs, name => if c = name then some 0 else (colIndex cs name).map (· + 1)

/-- Embedding of `df[name]` column selection: the cells of the named
column, or a `KeyError` when the column is absent. -/
def Table.col (t : Table) (name : String) : Except PyErr (List String) :=
  match colIndex t.cols name with
  | none => .error (.keyError name)
  | some i => .ok (t.rows.map (fun r => r.getD i emptyCell))

/-- Distinct-count fold: counts elements not yet seen, mirroring how a
hash-set based `Series.nunique` scans the column. -/
def nuniqueAux : List String → List String → Nat
  | [], _ => 0
  | x :: xs, seen =>
    if x ∈ seen then nuniqueAux xs seen else nuniqueAux xs (x :: seen) + 1

/-- Embedding of `Series.nunique()`: the number of distinct values. -/
def nunique (l : List String) : Nat := nuniqueAux l []

/-- Embedding of `Series.min()`: smallest value, `none` on an empty
series. -/
def seriesMin : List String → Option String
  | [] => none
  | x :: xs =>
    match seriesMin xs with
    | none => some x
    | some y => some (if x ≤ y then x else y)

/-- Embedding of `Series.max()`: largest value, `none` on an empty
series. -/
def seriesMax : List String → Option String
  | [] => none
  | x :: xs =>
    match seriesMax xs with
    | none => some x
    | some y => some (if y ≤ x then x else y)

/-- The nonempty prefixes of a path: the directory and all its
ancestors. -/
def prefixesOf (p : FPath) : List FPath :=
  (List.range p.length).map (fun i => p.take (i + 1))

/-- A directory exists when it is the root or is recorded on the disk. -/
def Disk.dirExists (d : Disk) (p : FPath) : Prop :=
  p = [] ∨ p ∈ d.dirs

instance (d : Disk) (p : FPath) : Decidable (d.dirExists p) := by
  unfold Disk.dirExists; infer_instance

/-- Embedding of `parquet_path.parent.mkdir(parents=True, exist_ok=True)`
(line 66): records the directory and every missing ancestor; never
fails. -/
def Disk.mkdirParents (d : Disk) (dir : FPath) : Disk :=
  { d with dirs := d.dirs ++ (prefixesOf dir).filter (fun q => decide (q ∉ d.dirs)) }

/-- Replace the file at a path, or append it. -/
def upsert : List (FPath × DiskFile) → FPath → DiskFile → List (FPath × DiskFile)
  | [], p, f => [(p, f)]
  | (q, g) :: rest, p, f =>
    if q = p then (p, f) :: rest else (q, g) :: upsert rest p f

/-- Embedding of `df.to_parquet(parquet_path, engine='pyarrow',
compression='snappy', index=False)` (line 70): stores the table unchanged
(no index column) in a file of `bytes` bytes — the size the opaque codec
produces — failing when the parent directory does not exist. -/
def to_parquet (d : Disk) (p : FPath) (t : Table) (bytes : Nat) : Except PyErr Disk :=
  if d.dirExists p.dropLast then
    .ok { d with files := upsert d.files p ⟨.parquet t, bytes⟩ }
  else .error (.noSuchDir p.dropLast)

/-- Decode the Parquet file at a path back into a table, when one is
there. -/
def readParquet (d : Disk) (p : FPath) : Option Table :=
  match findFile d.files p with
  | some f =>
    match f.content with
    | .parquet t => some t
    | .csv _ => none
  | none => none

/-- Embedding of the `try` block of `convert_csv_to_parquet` (lines
41-92): returns the lines printed, the filesystem afterwards, and the
exception that aborted the block, if any.  `pqBytes` is the size of the
Parquet file the codec produces. -/
def tryBody (d : Disk) (csv_path parquet_path : FPath) (pqBytes : Nat) :
    List Line × Disk × Option PyErr :=
  match read_csv d csv_path with
  | .error e => ([], d, some e)
  | .ok df =>
    let out := [Line.loadedOk, Line.rowCount df.rows.length,
      Line.colCount df.cols.length, Line.columnsHeader] ++
      df.cols.map Line.columnName ++ [Line.statsHeader]
    match Table.col df colInvoiceDate with
    | .error e => (out, d, some e)
    | .ok dates =>
      let out := out ++ [Line.dateRange (seriesMin dates) (seriesMax dates)]
      match Table.col df colInvoice with
      | .error e => (out, d, some e)
      | .ok invoices =>
        let out := out ++ [Line.uniqueInvoices (nunique invoices)]
        match Table.col df colStockCode with
        | .error e => (out, d, some e)
        | .ok stocks =>
          let out := out ++ [Line.uniqueProducts (nunique stocks)]
          match Table.col df colCustomerID with
          | .error e => (out, d, some e)
          | .ok customers =>
            let out := out ++ [Line.uniqueCustomers (nunique customers)]
            let d1 := d.mkdirParents parquet_path.dropLast
            let out := out ++ [Line.convertingMsg]
            match to_parquet d1 parquet_path df pqBytes with
            | .error e => (out, d1, some e)
            | .ok d2 =>
              match get_file_size_mb d2 parquet_path with
              | .error e => (out ++ [Line.parquetCreated parquet_path], d2, some e)
              | .ok pqMB =>
                let out := out ++ [Line.parquetCreated parquet_path,
                  Line.fileSizeMB pqMB]
                match get_file_size_mb d2 csv_path with
                | .error e => (out, d2, some e)
                | .ok csvMB =>
                  match get_file_size_mb d2 parquet_path with
                  | .error e => (out, d2, some e)
                  | .ok pqMB2 =>
                    if csvMB = 0 then (out, d2, some .zeroDivision)
                    else
                      (out ++ [Line.blank, Line.summaryRule, Line.summaryHeader,
                        Line.summaryRule, Line.csvSizeMB csvMB,
                        Line.parquetSizeMB pqMB2,
                        Line.compressionPct ((1 - pqMB2 / csvMB) * 100),
                        Line.rowsProcessed df.rows.length, Line.summaryRule],
                        d2, none)

set_option linter.unusedVariables false in
/-- Embedding of `convert_csv_to_parquet` (line 25).  The two prints at
lines 38-39 run before the `try` block, so a `FileNotFoundError` raised by
`get_file_size_mb` there propagates unhandled.  Errors inside the `try`
block reach the two handlers: `FileNotFoundError` prints the not-found
message, any other exception prints the conversion-error message, and both
call `sys.exit(1)`.  `chunk_size` is accepted but never read.  `pqBytes`
is the size of the Parquet file the codec produces. -/
def convert_csv_to_parquet (d : Disk) (csv_path parquet_path : FPath)
    (chunk_size : Nat) (pqBytes : Nat) : RunResult :=
  let out0 := [Line.readingCsv csv_path]
  match get_file_size_mb d csv_path with
  | .error e => ⟨out0, d, .raised e⟩
  | .ok mb =>
    let out1 := out0 ++ [Line.fileSizeMB mb]
    match tryBody d csv_path parquet_path pqBytes with
    | (outB, d1, none) => ⟨out1 ++ outB, d1, .normal⟩
    | (outB, d1, some (.fileNotFound _)) =>
      ⟨out1 ++ outB ++ [Line.errorCsvNotFound csv_path], d1, .exited 1⟩
    | (outB, d1, some e) =>
      ⟨out1 ++ outB ++ [Line.errorDuringConversion e], d1, .exited 1⟩

/-- Path component constant of `main`. -/
def dataDir : String := "data"

/-- Path component constant of `main`. -/
def rawDir : String := "raw"

/-- Path component constant of `main`. -/
def processedDir : String := "processed"

/-- Path component constant of `main`. -/
def csvFileName : String := "online_retail_II.csv"

/-- Path component constant of `main`. -/
def parquetFileName : String := "online_retail.parquet"

/-- Embedding of the script's `main` (line 102).  `script` is the path of the script
itself (`__file__`); the project root is three `parent` steps up and the
input/output paths are fixed relative to it.  The model takes no
command-line arguments and no environment: `main` is a function of the
script location, the filesystem and the codec's output size only. -/
def pyMain (d : Disk) (script : FPath) (pqBytes : Nat) : RunResult :=
  let project_root := script.dropLast.dropLast.dropLast
  let csv_path := project_root ++ [dataDir, rawDir, csvFileName]
  let parquet_path := project_root ++ [dataDir, processedDir, parquetFileName]
  let banner := [Line.bannerRule, Line.bannerTitle, Line.bannerSubtitle,
    Line.bannerRule, Line.blank]
  let r := convert_csv_to_parquet d csv_path parquet_path 100000 pqBytes
  match r.term with
  | .normal =>
    ⟨banner ++ r.out ++ [Line.completedMsg, Line.nextStepsMsg parquet_path],
      r.disk, .normal⟩
  | t => ⟨banner ++ r.out, r.disk, t⟩

/-- The CSV input path `main` computes: `project_root / "data" / "raw" /
"online_retail_II.csv"` with the project root three directories up from
the script. -/
def mainCsvPath (script : FPath) : FPath :=
  script.dropLast.dropLast.dropLast ++ [dataDir, rawDir, csvFileName]

/-- The Parquet output path `main` computes: `project_root / "data" /
"processed" / "online_retail.parquet"`. -/
def mainParquetPath (script : FPath) : FPath :=
  script.dropLast.dropLast.dropLast ++ [dataDir, processedDir, parquetFileName]

/-- Concrete sample table: four columns, two rows with duplicated
invoice, product and customer values. -/
def wTable : Table :=
  ⟨[colInvoiceDate, colInvoice, colStockCode, colCustomerID],
   [["2009-12-01 07:45:00", "489434", "85048", "13085"],
    ["2009-12-01 07:46:00", "489434", "85048", "13085"]]⟩

/-- Concrete sample CSV path. -/
def wCsvPath : FPath := ["proj", "data", "raw", "online_retail_II.csv"]

/-- Concrete sample Parquet path. -/
def wParquetPath : FPath := ["proj", "data", "processed", "online_retail.parquet"]

/-- Concrete sample script path. -/
def wScript : FPath := ["proj", "scripts", "python", "convert_to_parquet.py"]

/-- Concrete sample disk holding the sample CSV (2 MiB). -/
def wDisk : Disk :=
  ⟨[(wCsvPath, ⟨.csv wTable, 2097152⟩)],
   [["proj"], ["proj", "data"], ["proj", "data", "raw"]]⟩

/-- Concrete empty disk: the source CSV is missing. -/
def wDiskEmpty : Disk := ⟨[], []⟩

/-- Concrete sample table lacking the `Invoice` column. -/
def wTableNoInvoice : Table :=
  ⟨[colInvoiceDate, colStockCode, colCustomerID],
   [["2009-12-01 07:45:00", "85048", "13085"]]⟩

/-- Concrete disk whose CSV lacks the `Invoice` column. -/
def wDiskNoInvoice : Disk :=
  ⟨[(wCsvPath, ⟨.csv wTableNoInvoice, 4096⟩)], []⟩

/-! ## Helper lemmas -/

theorem nuniqueAux_sdiff (l : List String) :
    ∀ seen : List String, nuniqueAux l seen = (l.toFinset \ seen.toFinset).card := by
  induction l with
  | nil => intro seen; simp [nuniqueAux]
  | cons x xs ih =>
    intro seen
    by_cases hx : x ∈ seen
    · rw [nuniqueAux, if_pos hx, ih]
      have : x ∈ seen.toFinset := List.mem_toFinset.mpr hx
      simp [Finset.insert_sdiff_of_mem _ this]
    · rw [nuniqueAux, if_neg hx, ih]
      have hxs : x ∉ seen.toFinset := fun h => hx (List.mem_toFinset.mp h)
      rw [List.toFinset_cons, List.toFinset_cons,
        Finset.sdiff_insert, Finset.insert_sdiff_of_not_mem _ hxs]
      by_cases hmem : x ∈ xs.toFinset \ seen.toFinset
      · rw [Finset.card_insert_of_mem hmem, Finset.card_erase_of_mem hmem,
          Nat.sub_add_cancel (Nat.one_le_iff_ne_zero.mpr
            (Finset.card_ne_zero_of_mem hmem))]
      · rw [Finset.erase_eq_of_not_mem hmem, Finset.card_insert_of_not_mem hmem]

/-- The seen-set fold computing `nunique` returns the true distinct-value
cardinality of the list. -/
theorem nunique_eq_card_toFinset (l : List String) : nunique l = l.toFinset.card := by
  simpa using nuniqueAux_sdiff l []

theorem colIndex_eq_none_iff (cs : List String) (n : String) :
    colIndex cs n = none ↔ n ∉ cs := by
  induction cs with
  | nil => simp [colIndex]
  | cons c cs ih =>
    by_cases h : c = n
    · simp [colIndex, h]
    · simp only [colIndex, if_neg h, Option.map_eq_none', ih, List.mem_cons, not_or]
      constructor
      · intro hn
        exact ⟨fun he => h he.symm, hn⟩
      · intro hp
        exact hp.2

theorem Table.col_error_cases {t : Table} {n : String} {e : PyErr}
    (h : Table.col t n = .error e) : e = .keyError n := by
  unfold Table.col at h
  split at h
  · exact (Except.error.injEq _ _).mp h |>.symm
  · exact absurd h (by simp)

theorem Table.col_of_not_mem {t : Table} {n : String} (h : n ∉ t.cols) :
    Table.col t n = .error (.keyError n) := by
  unfold Table.col
  rw [(colIndex_eq_none_iff t.cols n).mpr h]

theorem Table.col_of_mem {t : Table} {n : String} (h : n ∈ t.cols) :
    ∃ vals, Table.col t n = .ok vals := by
  unfold Table.col
  rcases hi : colIndex t.cols n with _ | i
  · exact absurd ((colIndex_eq_none_iff t.cols n).mp hi) (by simpa using h)
  · exact ⟨_, rfl⟩

theorem read_csv_error_cases {d : Disk} {p : FPath} {e : PyErr}
    (h : read_csv d p = .error e) :
    e = .fileNotFound p ∨ e = .parseDatesMissingInvoiceDate ∨ e = .parseError := by
  unfold read_csv at h
  split at h
  · simp_all
  · split at h
    · split at h
      · simp_all
      · simp_all
    · simp_all

theorem read_csv_of_csv {d : Disk} {p : FPath} {f : DiskFile} {t : Table}
    (hf : findFile d.files p = some f) (hc : f.content = .csv t)
    (hm : colInvoiceDate ∈ t.cols) : read_csv d p = .ok t := by
  simp [read_csv, hf, hc, hm]

theorem read_csv_missing_invoice_date {d : Disk} {p : FPath} {f : DiskFile} {t : Table}
    (hf : findFile d.files p = some f) (hc : f.content = .csv t)
    (hm : colInvoiceDate ∉ t.cols) :
    read_csv d p = .error .parseDatesMissingInvoiceDate := by
  simp [read_csv, hf, hc, hm]

theorem findFile_upsert_self (files : List (FPath × DiskFile)) (p : FPath) (f : DiskFile) :
    findFile (upsert files p f) p = some f := by
  induction files with
  | nil => simp [upsert, findFile]
  | cons e rest ih =>
    obtain ⟨q, g⟩ := e
    by_cases h : q = p
    · simp [upsert, h, findFile]
    · simp [upsert, h, findFile, ih]

theorem findFile_upsert_ne (files : List (FPath × DiskFile)) {p q : FPath}
    (f : DiskFile) (h : q ≠ p) :
    findFile (upsert files p f) q = findFile files q := by
  induction files with
  | nil => simp [upsert, findFile, Ne.symm h]
  | cons e rest ih =>
    obtain ⟨r, g⟩ := e
    by_cases hr : r = p
    · subst hr
      simp [upsert, findFile, Ne.symm h]
    · simp only [upsert, if_neg hr, findFile]
      split
      · rfl
      · exact ih

theorem mkdirParents_files (d : Disk) (dir : FPath) :
    (d.mkdirParents dir).files = d.files := rfl

theorem mem_dirs_mkdirParents {d : Disk} {dir q : FPath} (h : q ∈ prefixesOf dir) :
    q ∈ (d.mkdirParents dir).dirs := by
  unfold Disk.mkdirParents
  by_cases hq : q ∈ d.dirs
  · simp [hq]
  · simp only [List.mem_append, List.mem_filter]
    exact Or.inr ⟨h, by simpa using hq⟩

theorem self_mem_prefixesOf {dir : FPath} (h : dir ≠ []) : dir ∈ prefixesOf dir := by
  unfold prefixesOf
  have hlen : 0 < dir.length := List.length_pos.mpr h
  refine List.mem_map.mpr ⟨dir.length - 1, ?_, ?_⟩
  · simpa using Nat.sub_lt hlen Nat.one_pos
  · rw [Nat.sub_add_cancel (Nat.one_le_iff_ne_zero.mpr (Nat.pos_iff_ne_zero.mp hlen))]
    exact List.take_length dir

theorem dirExists_mkdirParents_self (d : Disk) (dir : FPath) :
    (d.mkdirParents dir).dirExists dir := by
  by_cases h : dir = []
  · exact Or.inl h
  · exact Or.inr (mem_dirs_mkdirParents (self_mem_prefixesOf h))

theorem mkdirParents_id {d : Disk} {dir : FPath}
    (h : ∀ q ∈ prefixesOf dir, q ∈ d.dirs) : d.mkdirParents dir = d := by
  unfold Disk.mkdirParents
  have hnil : (prefixesOf dir).filter (fun q => decide (q ∉ d.dirs)) = [] := by
    rw [List.filter_eq_nil_iff]
    intro q hq
    simpa using h q hq
  rw [hnil, List.append_nil]

theorem to_parquet_mkdirParents_ok (d : Disk) (pq : FPath) (t : Table) (b : Nat) :
    to_parquet (d.mkdirParents pq.dropLast) pq t b =
      .ok { files := upsert d.files pq ⟨.parquet t, b⟩,
            dirs := (d.mkdirParents pq.dropLast).dirs } := by
  unfold to_parquet
  rw [if_pos (dirExists_mkdirParents_self d pq.dropLast)]
  rfl

/-- Inversion of a successful `try` block: the CSV was loaded, the three
statistics columns were present, the Parquet file holding the loaded table
was written next to a recorded directory, the re-measured sizes are those
of the actual files, and the summary lines carry the computed values. -/
theorem tryBody_none_inv {d : Disk} {csv pq : FPath} {b : Nat} {out : List Line} {d2 : Disk}
    (h : tryBody d csv pq b = (out, d2, none)) :
    ∃ t invs stocks custs csvMB,
      read_csv d csv = .ok t ∧
      Table.col t colInvoice = .ok invs ∧
      Table.col t colStockCode = .ok stocks ∧
      Table.col t colCustomerID = .ok custs ∧
      d2 = { files := upsert d.files pq ⟨.parquet t, b⟩,
             dirs := (d.mkdirParents pq.dropLast).dirs } ∧
      get_file_size_mb d2 csv = .ok csvMB ∧ csvMB ≠ 0 ∧
      get_file_size_mb d2 pq = .ok ((b : ℚ) / (1024 * 1024)) ∧
      Line.uniqueInvoices (nunique invs) ∈ out ∧
      Line.uniqueProducts (nunique stocks) ∈ out ∧
      Line.uniqueCustomers (nunique custs) ∈ out ∧
      Line.compressionPct ((1 - ((b : ℚ) / (1024 * 1024)) / csvMB) * 100) ∈ out := by
  unfold tryBody at h
  cases hread : read_csv d csv with
  | error e => simp [hread] at h
  | ok df =>
    simp only [hread] at h
    cases hdates : Table.col df colInvoiceDate with
    | error e => simp [hdates] at h
    | ok dates =>
      simp only [hdates] at h
      cases hinv : Table.col df colInvoice with
      | error e => simp [hinv] at h
      | ok invs =>
        simp only [hinv] at h
        cases hstock : Table.col df colStockCode with
        | error e => simp [hstock] at h
        | ok stocks =>
          simp only [hstock] at h
          cases hcust : Table.col df colCustomerID with
          | error e => simp [hcust] at h
          | ok customers =>
            simp only [hcust, to_parquet_mkdirParents_ok] at h
            simp only [get_file_size_mb, Disk.statBytes, findFile_upsert_self,
              Option.map_some'] at h
            cases hcsv : (findFile (upsert d.files pq ⟨.parquet df, b⟩) csv).map DiskFile.size with
            | none => simp [hcsv] at h
            | some cb =>
              simp only [hcsv, Option.map_some'] at h
              split at h
              · simp at h
              · rename_i hz0
                have hzq : ((cb : ℚ) / (1024 * 1024)) ≠ 0 := hz0
                simp only [Prod.mk.injEq] at h
                obtain ⟨hout, hd2, -⟩ := h
                subst hd2
                refine ⟨df, invs, stocks, customers, (cb : ℚ) / (1024 * 1024),
                  rfl, hinv, hstock, hcust, rfl, ?_, hzq, ?_, ?_, ?_, ?_, ?_⟩
                · simp [get_file_size_mb, Disk.statBytes, hcsv]
                · simp [get_file_size_mb, Disk.statBytes, findFile_upsert_self]
                · subst hout; simp
                · subst hout; simp
                · subst hout; simp
                · subst hout; simp

/-- Inversion of a normally-returning `convert_csv_to_parquet` run: the
pre-`try` size check succeeded and the `try` block ran to completion; the
full result record is determined by those two outcomes. -/
theorem convert_normal_inv {d : Disk} {csv pq : FPath} {k b : Nat}
    (h : (convert_csv_to_parquet d csv pq k b).term = .normal) :
    ∃ mb out1 d2,
      get_file_size_mb d csv = .ok mb ∧
      tryBody d csv pq b = (out1, d2, none) ∧
      convert_csv_to_parquet d csv pq k b =
        ⟨Line.readingCsv csv :: Line.fileSizeMB mb :: out1, d2, .normal⟩ := by
  unfold convert_csv_to_parquet at h ⊢
  cases hs : get_file_size_mb d csv with
  | error e => simp [hs] at h
  | ok mb =>
    simp only [hs] at h ⊢
    rcases ht : tryBody d csv pq b with ⟨outB, d1, err⟩
    cases err with
    | none =>
      refine ⟨mb, outB, d1, rfl, rfl, ?_⟩
      simp [ht]
    | some e =>
      cases e <;> simp [ht] at h

/-! ## Claims -/

/-- C5: the `chunk_size` parameter of `convert_csv_to_parquet` is dead:
two invocations differing only in `chunk_size` produce identical printed
output, identical filesystem effects and identical exit behaviour (the
whole run result is equal). -/
theorem convert_chunk_size_is_dead (d : Disk) (csv pq : FPath) (k1 k2 b : Nat) :
    convert_csv_to_parquet d csv pq k1 b = convert_csv_to_parquet d csv pq k2 b := rfl

/-- C6: for every existing path, `get_file_size_mb` returns the file's
size in bytes divided by 1,048,576; it adds no error handling of its own
and assumes the path exists. -/
theorem get_file_size_mb_of_existing_path (d : Disk) (p : FPath) (bytes : Nat)
    (h : d.statBytes p = some bytes) :
    get_file_size_mb d p = .ok ((bytes : ℚ) / 1048576) := by
  unfold get_file_size_mb
  rw [h]
  norm_num

/-- Witness for C6 at a concrete disk: the sample CSV is 2,097,152 bytes
and its size is reported as 2097152/1048576 MB. -/
theorem get_file_size_mb_of_existing_path_witness :
    wDisk.statBytes wCsvPath = some 2097152 ∧
    get_file_size_mb wDisk wCsvPath = .ok ((2097152 : ℚ) / 1048576) :=
  ⟨rfl, get_file_size_mb_of_existing_path wDisk wCsvPath 2097152 rfl⟩

/-- C3: when the source path does not exist, the process ends with exit
status 1 (here via the unhandled `FileNotFoundError` from the pre-`try`
size check), it does not return normally, and the filesystem is left
exactly as it was: no destination file and no directories are created. -/
theorem convert_missing_source_leaves_disk_unchanged (d : Disk) (csv pq : FPath) (k b : Nat)
    (h : d.statBytes csv = none) :
    (convert_csv_to_parquet d csv pq k b).term.exitStatus = 1 ∧
    (convert_csv_to_parquet d csv pq k b).term ≠ .normal ∧
    (convert_csv_to_parquet d csv pq k b).disk = d := by
  have hfs : get_file_size_mb d csv = .error (.fileNotFound csv) := by
    unfold get_file_size_mb
    rw [h]
  simp only [convert_csv_to_parquet, hfs]
  refine ⟨rfl, by simp, by simp⟩

/-- Witness for C3 at a concrete empty disk. -/
theorem convert_missing_source_leaves_disk_unchanged_witness :
    wDiskEmpty.statBytes wCsvPath = none ∧
    ((convert_csv_to_parquet wDiskEmpty wCsvPath wParquetPath 100000 1048576).term.exitStatus = 1 ∧
     (convert_csv_to_parquet wDiskEmpty wCsvPath wParquetPath 100000 1048576).term ≠ .normal ∧
     (convert_csv_to_parquet wDiskEmpty wCsvPath wParquetPath 100000 1048576).disk = wDiskEmpty) :=
  ⟨rfl, convert_missing_source_leaves_disk_unchanged wDiskEmpty wCsvPath
    wParquetPath 100000 1048576 rfl⟩

/-- C2 (documents the code bug): on a missing source the run aborts with an
unhandled `FileNotFoundError` raised by the pre-`try` size print (line 39),
before the `try` block is entered; the `except FileNotFoundError` handler
(lines 94-96) never runs, so its "CSV file not found" message is not
printed — the only output is the line-38 "Reading CSV file" print. -/
theorem convert_missing_source_skips_handler :
    (convert_csv_to_parquet wDiskEmpty wCsvPath wParquetPath 100000 1048576).term
      = ProcEnd.raised (PyErr.fileNotFound wCsvPath) ∧
    Line.errorCsvNotFound wCsvPath ∉
      (convert_csv_to_parquet wDiskEmpty wCsvPath wParquetPath 100000 1048576).out ∧
    (convert_csv_to_parquet wDiskEmpty wCsvPath wParquetPath 100000 1048576).out
      = [Line.readingCsv wCsvPath] := by
  norm_num [convert_csv_to_parquet, tryBody, get_file_size_mb, Disk.statBytes, findFile,
    wDiskEmpty]
  decide

theorem get_file_size_mb_ok_inv {d : Disk} {p : FPath} {mb : ℚ}
    (h : get_file_size_mb d p = .ok mb) :
    ∃ bytes, d.statBytes p = some bytes ∧ mb = (bytes : ℚ) / (1024 * 1024) := by
  unfold get_file_size_mb at h
  cases hs : d.statBytes p with
  | none => simp [hs] at h
  | some bytes =>
    simp only [hs, Except.ok.injEq] at h
    exact ⟨bytes, rfl, h.symm⟩

/-- C1: round-trip preservation.  Whenever `convert_csv_to_parquet`
completes normally on a CSV that loaded as table `t`, the Parquet file it
wrote at the destination decodes back to exactly `t`: the same row count,
the same column names, no transformation applied between load and
write. -/
theorem convert_roundtrip_preserves_table (d : Disk) (csv pq : FPath) (k b : Nat) (t : Table)
    (hn : (convert_csv_to_parquet d csv pq k b).term = .normal)
    (ht : read_csv d csv = .ok t) :
    readParquet (convert_csv_to_parquet d csv pq k b).disk pq = some t := by
  obtain ⟨mb, out1, d2, hs, htry, hres⟩ := convert_normal_inv hn
  obtain ⟨t2, invs, stocks, custs, csvMB, hread, hi, hsk, hcu, hd2, hrest⟩ :=
    tryBody_none_inv htry
  rw [ht] at hread
  injection hread with htt
  subst htt
  subst hd2
  rw [hres]
  simp [readParquet, findFile_upsert_self]

/-- Witness for C1: the sample conversion succeeds and the written
Parquet file decodes back to the sample table. -/
theorem convert_roundtrip_preserves_table_witness :
    readParquet (convert_csv_to_parquet wDisk wCsvPath wParquetPath 100000 1048576).disk
      wParquetPath = some wTable :=
  convert_roundtrip_preserves_table wDisk wCsvPath wParquetPath 100000 1048576 wTable
    (by norm_num +decide [convert_csv_to_parquet, tryBody, read_csv, get_file_size_mb,
      Disk.statBytes, findFile, wDisk, wCsvPath, wParquetPath, wTable, Table.col, colIndex,
      colInvoiceDate, colInvoice, colStockCode, colCustomerID, nunique, nuniqueAux,
      seriesMin, seriesMax, Disk.mkdirParents, prefixesOf, to_parquet, Disk.dirExists,
      upsert, emptyCell])
    (by simp [read_csv, findFile, wDisk, wCsvPath, wTable, colInvoiceDate])

/-- C4: on every normal completion, the output contains the compression
line whose value is `(1 - parquetSizeMB / csvSizeMB) * 100`, computed from
the byte sizes the actual source and written destination files have on the
final filesystem. -/
theorem convert_reports_compression_from_actual_sizes (d : Disk) (csv pq : FPath) (k b : Nat)
    (hn : (convert_csv_to_parquet d csv pq k b).term = .normal) :
    ∃ cb pb : Nat,
      (convert_csv_to_parquet d csv pq k b).disk.statBytes csv = some cb ∧
      (convert_csv_to_parquet d csv pq k b).disk.statBytes pq = some pb ∧
      ((cb : ℚ) / (1024 * 1024)) ≠ 0 ∧
      Line.compressionPct ((1 - ((pb : ℚ) / (1024 * 1024)) / ((cb : ℚ) / (1024 * 1024))) * 100)
        ∈ (convert_csv_to_parquet d csv pq k b).out := by
  obtain ⟨mb, out1, d2, hs, htry, hres⟩ := convert_normal_inv hn
  obtain ⟨t2, invs, stocks, custs, csvMB, hread, hi, hsk, hcu, hd2, hcsvmb, hz, hpq,
    hui, hup, huc, hpct⟩ := tryBody_none_inv htry
  obtain ⟨cb, hcb, hcbv⟩ := get_file_size_mb_ok_inv hcsvmb
  obtain ⟨pb, hpb, hpbv⟩ := get_file_size_mb_ok_inv hpq
  refine ⟨cb, pb, ?_, ?_, ?_, ?_⟩
  · rw [hres]; exact hcb
  · rw [hres]; exact hpb
  · exact hcbv ▸ hz
  · rw [hres]
    refine List.mem_cons_of_mem _ (List.mem_cons_of_mem _ ?_)
    rw [← hpbv, ← hcbv]
    exact hpct

/-- Witness for C4: the sample conversion succeeds, so the compression
line computed from the actual file sizes is reported. -/
theorem convert_reports_compression_from_actual_sizes_witness :
    ∃ cb pb : Nat,
      (convert_csv_to_parquet wDisk wCsvPath wParquetPath 100000 1048576).disk.statBytes
        wCsvPath = some cb ∧
      (convert_csv_to_parquet wDisk wCsvPath wParquetPath 100000 1048576).disk.statBytes
        wParquetPath = some pb ∧
      ((cb : ℚ) / (1024 * 1024)) ≠ 0 ∧
      Line.compressionPct ((1 - ((pb : ℚ) / (1024 * 1024)) / ((cb : ℚ) / (1024 * 1024))) * 100)
        ∈ (convert_csv_to_parquet wDisk wCsvPath wParquetPath 100000 1048576).out :=
  convert_reports_compression_from_actual_sizes wDisk wCsvPath wParquetPath 100000 1048576
    (by norm_num +decide [convert_csv_to_parquet, tryBody, read_csv, get_file_size_mb,
      Disk.statBytes, findFile, wDisk, wCsvPath, wParquetPath, wTable, Table.col, colIndex,
      colInvoiceDate, colInvoice, colStockCode, colCustomerID, nunique, nuniqueAux,
      seriesMin, seriesMax, Disk.mkdirParents, prefixesOf, to_parquet, Disk.dirExists,
      upsert, emptyCell])

/-- C8: on every normal completion for a dataset loaded as `t` — duplicates
in the `Invoice`, `StockCode` and `Customer ID` columns included — the
three reported distinct counts are the true distinct-value cardinalities
of those columns. -/
theorem convert_reports_true_distinct_counts (d : Disk) (csv pq : FPath) (k b : Nat) (t : Table)
    (hn : (convert_csv_to_parquet d csv pq k b).term = .normal)
    (ht : read_csv d csv = .ok t) :
    ∃ invs stocks custs,
      Table.col t colInvoice = .ok invs ∧
      Table.col t colStockCode = .ok stocks ∧
      Table.col t colCustomerID = .ok custs ∧
      Line.uniqueInvoices invs.toFinset.card ∈ (convert_csv_to_parquet d csv pq k b).out ∧
      Line.uniqueProducts stocks.toFinset.card ∈ (convert_csv_to_parquet d csv pq k b).out ∧
      Line.uniqueCustomers custs.toFinset.card ∈ (convert_csv_to_parquet d csv pq k b).out := by
  obtain ⟨mb, out1, d2, hs, htry, hres⟩ := convert_normal_inv hn
  obtain ⟨t2, invs, stocks, custs, csvMB, hread, hi, hsk, hcu, hd2, hcsvmb, hz, hpq,
    hui, hup, huc, hpct⟩ := tryBody_none_inv htry
  rw [ht] at hread
  injection hread with htt
  subst htt
  refine ⟨invs, stocks, custs, hi, hsk, hcu, ?_, ?_, ?_⟩ <;>
  · rw [hres, ← nunique_eq_card_toFinset]
    exact List.mem_cons_of_mem _ (List.mem_cons_of_mem _ (by assumption))

/-- Witness for C8: the sample table has two rows with duplicated values
in all three columns; the reported distinct counts are the true
cardinalities. -/
theorem convert_reports_true_distinct_counts_witness :
    ∃ invs stocks custs,
      Table.col wTable colInvoice = .ok invs ∧
      Table.col wTable colStockCode = .ok stocks ∧
      Table.col wTable colCustomerID = .ok custs ∧
      Line.uniqueInvoices invs.toFinset.card
        ∈ (convert_csv_to_parquet wDisk wCsvPath wParquetPath 100000 1048576).out ∧
      Line.uniqueProducts stocks.toFinset.card
        ∈ (convert_csv_to_parquet wDisk wCsvPath wParquetPath 100000 1048576).out ∧
      Line.uniqueCustomers custs.toFinset.card
        ∈ (convert_csv_to_parquet wDisk wCsvPath wParquetPath 100000 1048576).out :=
  convert_reports_true_distinct_counts wDisk wCsvPath wParquetPath 100000 1048576 wTable
    (by norm_num +decide [convert_csv_to_parquet, tryBody, read_csv, get_file_size_mb,
      Disk.statBytes, findFile, wDisk, wCsvPath, wParquetPath, wTable, Table.col, colIndex,
      colInvoiceDate, colInvoice, colStockCode, colCustomerID, nunique, nuniqueAux,
      seriesMin, seriesMax, Disk.mkdirParents, prefixesOf, to_parquet, Disk.dirExists,
      upsert, emptyCell])
    (by simp [read_csv, findFile, wDisk, wCsvPath, wTable, colInvoiceDate])

theorem convert_out_head (d : Disk) (csv pq : FPath) (k b : Nat) :
    ∃ rest, (convert_csv_to_parquet d csv pq k b).out = Line.readingCsv csv :: rest := by
  unfold convert_csv_to_parquet
  cases hs : get_file_size_mb d csv with
  | error e => exact ⟨_, rfl⟩
  | ok mb =>
    rcases ht : tryBody d csv pq b with ⟨outB, d1, err⟩
    cases err with
    | none => exact ⟨_, rfl⟩
    | some e => cases e <;> exact ⟨_, rfl⟩

/-- C7: before writing, `convert` ensures the destination's parent
directory exists: `mkdir(parents=True, exist_ok=True)` makes the parent
and every missing ancestor level exist, is a no-op without error when
everything is already present, and the subsequent `to_parquet` write into
that directory succeeds. -/
theorem convert_ensures_destination_directory (d : Disk) (pq : FPath) (t : Table) (b : Nat) :
    (d.mkdirParents pq.dropLast).dirExists pq.dropLast ∧
    (∀ q ∈ prefixesOf pq.dropLast, (d.mkdirParents pq.dropLast).dirExists q) ∧
    ((∀ q ∈ prefixesOf pq.dropLast, q ∈ d.dirs) → d.mkdirParents pq.dropLast = d) ∧
    (∃ d2, to_parquet (d.mkdirParents pq.dropLast) pq t b = .ok d2) := by
  refine ⟨dirExists_mkdirParents_self d pq.dropLast, ?_, mkdirParents_id, ?_⟩
  · intro q hq
    exact Or.inr (mem_dirs_mkdirParents hq)
  · exact ⟨_, to_parquet_mkdirParents_ok d pq t b⟩

/-- C9: the script's `main` computes the input path as three directories
up from the script location joined with `data/raw/online_retail_II.csv`
and the output path as the same root joined with
`data/processed/online_retail.parquet`; it consults no command-line
arguments and no environment (the model's `pyMain` is a function of the
script location, the filesystem and the codec output size only), so for
every filesystem and codec size the banner is followed by the
"Reading CSV file" line naming exactly that input path, the filesystem
effect is exactly that of `convert_csv_to_parquet` invoked on those two
fixed paths with chunk size 100000, and a normal run leaves a decodable
Parquet file at exactly that output path. -/
theorem pyMain_fixed_paths (d : Disk) (script : FPath) (b : Nat) :
    (∃ rest, (pyMain d script b).out =
      [Line.bannerRule, Line.bannerTitle, Line.bannerSubtitle, Line.bannerRule, Line.blank]
        ++ Line.readingCsv
            (script.dropLast.dropLast.dropLast ++ [dataDir, rawDir, csvFileName]) :: rest) ∧
    (pyMain d script b).disk =
      (convert_csv_to_parquet d
        (script.dropLast.dropLast.dropLast ++ [dataDir, rawDir, csvFileName])
        (script.dropLast.dropLast.dropLast ++ [dataDir, processedDir, parquetFileName])
        100000 b).disk ∧
    ((pyMain d script b).term = .normal →
      ∃ t, readParquet (pyMain d script b).disk
        (script.dropLast.dropLast.dropLast ++ [dataDir, processedDir, parquetFileName])
          = some t) := by
  obtain ⟨rest0, hout⟩ := convert_out_head d
    (script.dropLast.dropLast.dropLast ++ [dataDir, rawDir, csvFileName])
    (script.dropLast.dropLast.dropLast ++ [dataDir, processedDir, parquetFileName]) 100000 b
  unfold pyMain
  rcases hterm : (convert_csv_to_parquet d
      (script.dropLast.dropLast.dropLast ++ [dataDir, rawDir, csvFileName])
      (script.dropLast.dropLast.dropLast ++ [dataDir, processedDir, parquetFileName])
      100000 b).term with _ | c | e
  · simp only [hterm]
    refine ⟨⟨rest0 ++ [Line.completedMsg, Line.nextStepsMsg
      (script.dropLast.dropLast.dropLast ++ [dataDir, processedDir, parquetFileName])],
      by simp [hout]⟩, by trivial, ?_⟩
    intro _
    obtain ⟨mb, out1, d2, hs, htry, hres⟩ := convert_normal_inv hterm
    obtain ⟨t2, invs, stocks, custs, csvMB, hread, hi, hsk, hcu, hd2, hrest⟩ :=
      tryBody_none_inv htry
    subst hd2
    rw [hres]
    exact ⟨t2, by simp [readParquet, findFile_upsert_self]⟩
  · simp only [hterm]
    exact ⟨⟨rest0, by simp [hout]⟩, by trivial, by simp⟩
  · simp only [hterm]
    exact ⟨⟨rest0, by simp [hout]⟩, by trivial, by simp⟩

/-- C10: if the source CSV exists but lacks one of the four required
columns, the run prints a conversion-error line and exits with code 1
before the destination directory or file is created: a missing
`InvoiceDate` fails inside `read_csv` (the load step, as the
`parse_dates` `ValueError`), a missing `Invoice`, `StockCode` or
`Customer ID` fails at the corresponding statistics access (a
`KeyError`), and in every case the filesystem is returned unchanged. -/
theorem convert_missing_required_column_exits_before_write
    (d : Disk) (csv pq : FPath) (k b : Nat) (f : DiskFile) (t : Table)
    (hf : findFile d.files csv = some f) (hc : f.content = .csv t)
    (hmiss : colInvoiceDate ∉ t.cols ∨ colInvoice ∉ t.cols ∨
      colStockCode ∉ t.cols ∨ colCustomerID ∉ t.cols) :
    (convert_csv_to_parquet d csv pq k b).term = .exited 1 ∧
    (convert_csv_to_parquet d csv pq k b).disk = d ∧
    (colInvoiceDate ∉ t.cols →
      Line.errorDuringConversion .parseDatesMissingInvoiceDate
        ∈ (convert_csv_to_parquet d csv pq k b).out) ∧
    (colInvoiceDate ∈ t.cols → colInvoice ∉ t.cols →
      Line.errorDuringConversion (.keyError colInvoice)
        ∈ (convert_csv_to_parquet d csv pq k b).out) ∧
    (colInvoiceDate ∈ t.cols → colInvoice ∈ t.cols → colStockCode ∉ t.cols →
      Line.errorDuringConversion (.keyError colStockCode)
        ∈ (convert_csv_to_parquet d csv pq k b).out) ∧
    (colInvoiceDate ∈ t.cols → colInvoice ∈ t.cols → colStockCode ∈ t.cols →
      colCustomerID ∉ t.cols →
      Line.errorDuringConversion (.keyError colCustomerID)
        ∈ (convert_csv_to_parquet d csv pq k b).out) := by
  have hstat : d.statBytes csv = some f.size := by simp [Disk.statBytes, hf]
  have hmb : get_file_size_mb d csv = .ok ((f.size : ℚ) / (1024 * 1024)) := by
    unfold get_file_size_mb
    rw [hstat]
  by_cases h1 : colInvoiceDate ∈ t.cols
  · obtain ⟨dates, hdates⟩ := Table.col_of_mem h1
    have hread := read_csv_of_csv hf hc h1
    by_cases h2 : colInvoice ∈ t.cols
    · obtain ⟨invs, hinvs⟩ := Table.col_of_mem h2
      by_cases h3 : colStockCode ∈ t.cols
      · obtain ⟨stocks, hstocks⟩ := Table.col_of_mem h3
        by_cases h4 : colCustomerID ∈ t.cols
        · rcases hmiss with hm | hm | hm | hm <;> contradiction
        · simp only [convert_csv_to_parquet, hmb, tryBody, hread, hdates, hinvs, hstocks,
            Table.col_of_not_mem h4]
          exact ⟨by trivial, by trivial, fun hm => absurd h1 hm, fun _ hm => absurd h2 hm,
            fun _ _ hm => absurd h3 hm, fun _ _ _ _ => by simp⟩
      · simp only [convert_csv_to_parquet, hmb, tryBody, hread, hdates, hinvs,
          Table.col_of_not_mem h3]
        exact ⟨by trivial, by trivial, fun hm => absurd h1 hm, fun _ hm => absurd h2 hm,
          fun _ _ _ => by simp, fun _ _ hm _ => absurd hm h3⟩
    · simp only [convert_csv_to_parquet, hmb, tryBody, hread, hdates,
        Table.col_of_not_mem h2]
      exact ⟨by trivial, by trivial, fun hm => absurd h1 hm, fun _ _ => by simp,
        fun _ hm _ => absurd hm h2, fun _ hm _ _ => absurd hm h2⟩
  · have hread := read_csv_missing_invoice_date hf hc h1
    simp only [convert_csv_to_parquet, hmb, tryBody, hread]
    exact ⟨by trivial, by trivial, fun _ => by simp, fun hm => absurd hm h1,
      fun hm _ _ => absurd hm h1, fun hm _ _ _ => absurd hm h1⟩

/-- Witness for C10: the sample disk whose CSV lacks the `Invoice` column
exits with code 1, leaves the filesystem unchanged, and prints the
`KeyError` conversion-error line for `Invoice`. -/
theorem convert_missing_required_column_exits_before_write_witness :
    (convert_csv_to_parquet wDiskNoInvoice wCsvPath wParquetPath 100000 4096).term
      = .exited 1 ∧
    (convert_csv_to_parquet wDiskNoInvoice wCsvPath wParquetPath 100000 4096).disk
      = wDiskNoInvoice ∧
    (colInvoiceDate ∉ wTableNoInvoice.cols →
      Line.errorDuringConversion .parseDatesMissingInvoiceDate
        ∈ (convert_csv_to_parquet wDiskNoInvoice wCsvPath wParquetPath 100000 4096).out) ∧
    (colInvoiceDate ∈ wTableNoInvoice.cols → colInvoice ∉ wTableNoInvoice.cols →
      Line.errorDuringConversion (.keyError colInvoice)
        ∈ (convert_csv_to_parquet wDiskNoInvoice wCsvPath wParquetPath 100000 4096).out) ∧
    (colInvoiceDate ∈ wTableNoInvoice.cols → colInvoice ∈ wTableNoInvoice.cols →
      colStockCode ∉ wTableNoInvoice.cols →
      Line.errorDuringConversion (.keyError colStockCode)
        ∈ (convert_csv_to_parquet wDiskNoInvoice wCsvPath wParquetPath 100000 4096).out) ∧
    (colInvoiceDate ∈ wTableNoInvoice.cols → colInvoice ∈ wTableNoInvoice.cols →
      colStockCode ∈ wTableNoInvoice.cols → colCustomerID ∉ wTableNoInvoice.cols →
      Line.errorDuringConversion (.keyError colCustomerID)
        ∈ (convert_csv_to_parquet wDiskNoInvoice wCsvPath wParquetPath 100000 4096).out) :=
  convert_missing_required_column_exits_before_write wDiskNoInvoice wCsvPath wParquetPath
    100000 4096 ⟨.csv wTableNoInvoice, 4096⟩ wTableNoInvoice rfl rfl
    (Or.inr (Or.inl (by decide)))
